import Mathlib

/-!
Verification of the quantitative core of the OptionsDayTradingAssistant
repository against its natural-language specification.

The Python source is shallowly embedded over the rationals.  Transcendental
library calls (math.sqrt, math.exp, np.log, scipy.stats.norm.cdf) are taken
as explicit function parameters of the embedded definitions, so every
definition stays computable while keeping the exact branch and arithmetic
structure of the source.  A Python expression that can raise
(ZeroDivisionError on float division by zero, ValueError from math.sqrt on a
negative argument, ValueError from np.max on an empty array) is embedded as
an Option-returning function whose none value marks exactly the raising
executions.
-/

namespace ODTA

/-- Directional bias tag of a scanner candidate (candidate["vwap_bias"]). -/
inductive Bias
  | bullish
  | bearish
  | neutral
deriving DecidableEq, Repr

/-- Market condition enumeration, src/src/strategies/strategy_configs.py. -/
inductive MarketCondition
  | strongBullish
  | strongBearish
  | bullishBreakout
  | bearishBreakout
  | highIvRange
  | choppy
  | newsSpike
deriving DecidableEq, Repr

/-- Strategy type enumeration, src/src/strategies/strategy_configs.py. -/
inductive StrategyType
  | longCall
  | longPut
  | callDebitSpread
  | putDebitSpread
  | callCreditSpread
  | putCreditSpread
  | ironCondor
  | skip
deriving DecidableEq, Repr

/-- Whether the StrategyType value string contains "Spread"; this is the
dispatch test used by RiskMetrics.calculate_trade_metrics. -/
def StrategyType.isSpread : StrategyType → Bool
  | .callDebitSpread => true
  | .putDebitSpread => true
  | .callCreditSpread => true
  | .putCreditSpread => true
  | _ => false

/-- Whether the StrategyType value string contains "Iron Condor". -/
def StrategyType.isIronCondor : StrategyType → Bool
  | .ironCondor => true
  | _ => false

/-- Option class of a contract or leg. -/
inductive OptionClass
  | call
  | put
deriving DecidableEq, Repr

/-- Buy or sell action of a trade leg. -/
inductive Action
  | buy
  | sell
deriving DecidableEq, Repr

/-- StrategyConfig dataclass, src/src/strategies/strategy_configs.py
(the free-text description field is omitted). -/
structure StrategyConfig where
  strategy_type : StrategyType
  delta_target : ℚ
  spread_width : ℚ
  max_dte : ℤ
deriving DecidableEq, Repr

/-- The STRATEGY_CONFIGS table of src/src/strategies/strategy_configs.py,
read through get_strategy_config. -/
def getStrategyConfig : MarketCondition → StrategyConfig
  | .strongBullish => ⟨.longCall, 60/100, 0, 7⟩
  | .strongBearish => ⟨.longPut, 60/100, 0, 7⟩
  | .bullishBreakout => ⟨.callDebitSpread, 50/100, 5, 7⟩
  | .bearishBreakout => ⟨.putDebitSpread, 50/100, 5, 7⟩
  | .highIvRange => ⟨.callCreditSpread, 30/100, 5, 7⟩
  | .choppy => ⟨.ironCondor, 20/100, 5, 2⟩
  | .newsSpike => ⟨.skip, 0, 0, 0⟩

/-- The fields of config/settings.py Settings that the verified core reads.
Every field is a plain pydantic Field with a default and no range
validator, so construction never rejects a value on range grounds. -/
structure Settings where
  low_iv_threshold : ℚ
  high_iv_threshold : ℚ
  extreme_iv_threshold : ℚ
  weight_probability : ℚ
  weight_risk_reward : ℚ
  weight_iv_edge : ℚ
  weight_liquidity : ℚ
  weight_trend : ℚ
  min_trade_score : ℚ
  max_trades_output : ℕ
deriving DecidableEq, Repr

/-- The default values declared in config/settings.py. -/
def defaultSettings : Settings :=
  { low_iv_threshold := 30
    high_iv_threshold := 60
    extreme_iv_threshold := 100
    weight_probability := 30/100
    weight_risk_reward := 25/100
    weight_iv_edge := 20/100
    weight_liquidity := 15/100
    weight_trend := 10/100
    min_trade_score := 70
    max_trades_output := 5 }

/-- Construction of a Settings instance.  config/settings.py declares the
five scoring-weight fields (lines 39-44) as plain floats with defaults and
registers no validator, and load_settings (lines 65-70) only memoizes
Settings(); pydantic therefore accepts every numeric assignment, including
negative weights.  The Option result records that construction is where a
validation error would surface: none never occurs for range reasons. -/
def validateSettings (s : Settings) : Option Settings := some s

/-- Scanner candidate snapshot: the keys of the candidate dict read by
StrategySelector._detect_market_condition. -/
structure Candidate where
  vwap_bias : Bias
  atr : ℚ
  volume : ℚ
  avg_volume : ℚ
deriving DecidableEq, Repr

/-- One option contract of the filtered universe: the keys read by the
strategy selector (greeks.delta flattened into the record). -/
structure Contract where
  strikePrice : ℚ
  dte : ℤ
  bid : ℚ
  ask : ℚ
  volatility : ℚ
  delta : ℚ
  theta : ℚ
  vega : ℚ
deriving DecidableEq, Repr

/-- Filtered options data: the keys of the options_data dict. -/
structure OptionsData where
  underlying_price : ℚ
  calls : List Contract
  puts : List Contract
deriving DecidableEq, Repr

/-- Python min(xs, key) over the nonempty list x :: xs: a left fold that
replaces the current best only on a strictly smaller key, so the first of
several minimizers wins. -/
def pyMin (key : α → ℚ) (x : α) (xs : List α) : α :=
  xs.foldl (fun b a => if key a < key b then a else b) x

/-- Python abs on a rational, written as a branch so that concrete values
evaluate by rewriting. -/
def pyAbs (q : ℚ) : ℚ := if q < 0 then -q else q

/-- Key used to locate the at-the-money call: abs(abs(delta) - 0.5). -/
def atmKey (c : Contract) : ℚ := pyAbs (pyAbs c.delta - 1/2)

/-- The fixed IV breakpoints of _estimate_iv_percentile
(src/src/strategies/strategy_selector.py lines 157-166). -/
def bucketIv (iv : ℚ) : ℚ :=
  if iv < 20 then 20
  else if iv < 30 then 35
  else if iv < 40 then 50
  else if iv < 60 then 70
  else 85

/-- StrategySelector._estimate_iv_percentile
(src/src/strategies/strategy_selector.py lines 131-166). -/
def estimateIvPercentile (od : OptionsData) : ℚ :=
  match od.calls with
  | [] => 50
  | x :: xs => bucketIv ((pyMin atmKey x xs).volatility * 100)

/-- volume / avg_volume if avg_volume > 0 else 1
(src/src/strategies/strategy_selector.py line 95). -/
def volumeRatio (c : Candidate) : ℚ :=
  if c.avg_volume > 0 then c.volume / c.avg_volume else 1

/-- StrategySelector._detect_market_condition
(src/src/strategies/strategy_selector.py lines 71-129).  The nested
Python conditionals (a directional sub-branch that falls through when the
bias is neutral) are flattened into an equivalent first-match chain. -/
def detectMarketCondition (s : Settings) (c : Candidate) (od : OptionsData) :
    MarketCondition :=
  let iv_percentile := estimateIvPercentile od
  let volume_ratio := volumeRatio c
  if iv_percentile > s.extreme_iv_threshold then .newsSpike
  else if volume_ratio > 2 ∧ c.atr > 5/2 ∧ c.vwap_bias = Bias.bullish then
    .strongBullish
  else if volume_ratio > 2 ∧ c.atr > 5/2 ∧ c.vwap_bias = Bias.bearish then
    .strongBearish
  else if volume_ratio > 3/2 ∧ iv_percentile < s.low_iv_threshold ∧
      c.vwap_bias = Bias.bullish then .bullishBreakout
  else if volume_ratio > 3/2 ∧ iv_percentile < s.low_iv_threshold ∧
      c.vwap_bias = Bias.bearish then .bearishBreakout
  else if iv_percentile > s.high_iv_threshold ∧ c.vwap_bias = Bias.neutral then
    .highIvRange
  else if c.vwap_bias = Bias.neutral ∧ volume_ratio < 3/2 then .choppy
  else if c.vwap_bias = Bias.bullish then .bullishBreakout
  else if c.vwap_bias = Bias.bearish then .bearishBreakout
  else .choppy

/-- One constructed trade leg: the keys of the leg dicts built by
_build_trade_structure, _build_spread and _build_iron_condor. -/
structure TradeLeg where
  action : Action
  option_type : OptionClass
  strike : ℚ
  quantity : ℚ
  price : ℚ
deriving DecidableEq, Repr

/-- A constructed trade: the keys of the trade dict that
RiskMetrics.calculate_trade_metrics reads (symbol, expiration and the
free-text explanation are omitted). -/
structure Trade where
  strategy : StrategyType
  condition : MarketCondition
  bias : Bias
  underlying_price : ℚ
  dte : ℤ
  legs : List TradeLeg
deriving DecidableEq, Repr

/-- Bid/ask midpoint, the entered price of every built leg. -/
def midPrice (c : Contract) : ℚ := (c.bid + c.ask) / 2

/-- StrategySelector._build_spread
(src/src/strategies/strategy_selector.py lines 265-326). -/
def buildSpread (underlying_price : ℚ) (long_contract : Contract)
    (hd : Contract) (tl : List Contract)
    (config : StrategyConfig) (condition : MarketCondition)
    (is_bullish is_bearish : Bool) (option_type : OptionClass) : Trade :=
  let long_strike := long_contract.strikePrice
  let target_short_strike :=
    if config.strategy_type = StrategyType.callDebitSpread ∨
        config.strategy_type = StrategyType.putCreditSpread then
      long_strike + config.spread_width
    else
      long_strike - config.spread_width
  let short_contract :=
    pyMin (fun x => pyAbs (x.strikePrice - target_short_strike)) hd tl
  let is_debit := config.strategy_type = StrategyType.callDebitSpread ∨
    config.strategy_type = StrategyType.putDebitSpread
  { strategy := config.strategy_type
    condition := condition
    bias := if is_bullish then .bullish else if is_bearish then .bearish
      else .neutral
    underlying_price := underlying_price
    dte := long_contract.dte
    legs :=
      [ { action := if is_debit then .buy else .sell
          option_type := option_type
          strike := long_strike
          quantity := 1
          price := midPrice long_contract },
        { action := if is_debit then .sell else .buy
          option_type := option_type
          strike := short_contract.strikePrice
          quantity := 1
          price := midPrice short_contract } ] }

/-- StrategySelector._build_iron_condor
(src/src/strategies/strategy_selector.py lines 328-385). -/
def buildIronCondor (od : OptionsData) (config : StrategyConfig) :
    Option Trade :=
  let calls := od.calls.filter (fun c => c.dte ≤ config.max_dte)
  let puts := od.puts.filter (fun c => c.dte ≤ config.max_dte)
  match calls, puts with
  | [], _ => none
  | _, [] => none
  | c0 :: cs, p0 :: ps =>
    let short_call := pyMin (fun x => pyAbs (pyAbs x.delta - 20/100)) c0 cs
    let short_put := pyMin (fun x => pyAbs (pyAbs x.delta - 20/100)) p0 ps
    let long_call := pyMin
      (fun x => pyAbs (x.strikePrice - (short_call.strikePrice + config.spread_width)))
      c0 cs
    let long_put := pyMin
      (fun x => pyAbs (x.strikePrice - (short_put.strikePrice - config.spread_width)))
      p0 ps
    some
      { strategy := .ironCondor
        condition := .choppy
        bias := .neutral
        underlying_price := od.underlying_price
        dte := short_call.dte
        legs :=
          [ ⟨.sell, .call, short_call.strikePrice, 1, midPrice short_call⟩,
            ⟨.buy, .call, long_call.strikePrice, 1, midPrice long_call⟩,
            ⟨.sell, .put, short_put.strikePrice, 1, midPrice short_put⟩,
            ⟨.buy, .put, long_put.strikePrice, 1, midPrice long_put⟩ ] }

/-- StrategySelector._build_trade_structure
(src/src/strategies/strategy_selector.py lines 168-263). -/
def buildTradeStructure (c : Candidate) (od : OptionsData)
    (condition : MarketCondition) (config : StrategyConfig) : Option Trade :=
  let _ := c
  let is_bullish := condition = MarketCondition.strongBullish ∨
    condition = MarketCondition.bullishBreakout
  let is_bearish := condition = MarketCondition.strongBearish ∨
    condition = MarketCondition.bearishBreakout
  let picked : Option (List Contract × OptionClass) :=
    if config.strategy_type = StrategyType.longCall ∨
        config.strategy_type = StrategyType.callDebitSpread ∨
        config.strategy_type = StrategyType.callCreditSpread then
      some (od.calls, .call)
    else if config.strategy_type = StrategyType.longPut ∨
        config.strategy_type = StrategyType.putDebitSpread ∨
        config.strategy_type = StrategyType.putCreditSpread then
      some (od.puts, .put)
    else none
  match picked with
  | none =>
    if config.strategy_type = StrategyType.ironCondor then
      buildIronCondor od config
    else none
  | some (pool, option_type) =>
    match pool.filter (fun x => x.dte ≤ config.max_dte) with
    | [] => none
    | hd :: tl =>
      let long_contract :=
        pyMin (fun x => pyAbs (pyAbs x.delta - config.delta_target)) hd tl
      if config.spread_width = 0 then
        some
          { strategy := config.strategy_type
            condition := condition
            bias := if is_bullish then .bullish
              else if is_bearish then .bearish else .neutral
            underlying_price := od.underlying_price
            dte := long_contract.dte
            legs :=
              [ { action := .buy
                  option_type := option_type
                  strike := long_contract.strikePrice
                  quantity := 1
                  price := midPrice long_contract } ] }
      else
        some (buildSpread od.underlying_price long_contract hd tl
          config condition is_bullish is_bearish option_type)

/-- StrategySelector.select_strategy
(src/src/strategies/strategy_selector.py lines 26-69).  Note: the real
method checks _build_iron_condor before the final None; the embedding keeps
the identical dispatch inside buildTradeStructure. -/
def selectStrategy (s : Settings) (c : Candidate) (od : OptionsData) :
    Option Trade :=
  let condition := detectMarketCondition s c od
  let config := getStrategyConfig condition
  if config.strategy_type = StrategyType.skip then none
  else buildTradeStructure c od condition config

/-- The metric keys shared by every branch of
RiskMetrics.calculate_trade_metrics (break-even points are computed by the
source as well but no claim mentions them, so they are not carried here). -/
structure RiskMetricsResult where
  max_loss : ℚ
  max_gain : ℚ
  net_cost : ℚ
  is_debit : Bool
  riskRewardRatio : ℚ
deriving DecidableEq, Repr

/-- Signed cost of one leg: price * quantity * 100, positive for BUY and
negative for SELL. -/
def legSigned (l : TradeLeg) : ℚ :=
  match l.action with
  | .buy => l.price * l.quantity * 100
  | .sell => -(l.price * l.quantity * 100)

/-- The net_cost accumulation loop of calculate_trade_metrics
(src/src/analytics/risk_metrics.py lines 32-40). -/
def netCost (legs : List TradeLeg) : ℚ :=
  legs.foldl (fun acc l => acc + legSigned l) 0

/-- Total premium of the BUY legs, scaled by the 100-share contract size. -/
def buyTotal (legs : List TradeLeg) : ℚ :=
  ((legs.filter fun l => l.action = Action.buy).map
    fun l => l.price * l.quantity * 100).sum

/-- Total premium of the SELL legs, scaled by the 100-share contract size. -/
def sellTotal (legs : List TradeLeg) : ℚ :=
  ((legs.filter fun l => l.action = Action.sell).map
    fun l => l.price * l.quantity * 100).sum

/-- RiskMetrics._calculate_single_option_metrics
(src/src/analytics/risk_metrics.py lines 71-97); returns
(max_loss, max_gain) for the first leg. -/
def singleOptionMetrics (underlying_price : ℚ) (leg : TradeLeg)
    (net_cost : ℚ) : ℚ × ℚ :=
  let max_loss := pyAbs net_cost
  match leg.option_type with
  | .call =>
    let practical_max_gain := (underlying_price * 2 - leg.strike) * 100 - max_loss
    (max_loss, max practical_max_gain (max_loss * 3))
  | .put => (max_loss, leg.strike * 100 - max_loss)

/-- RiskMetrics._calculate_spread_metrics
(src/src/analytics/risk_metrics.py lines 99-127); returns
(max_loss, max_gain). -/
def spreadMetrics (legs : List TradeLeg) (net_cost : ℚ) (is_debit : Bool) :
    ℚ × ℚ :=
  match legs with
  | l0 :: l1 :: _ =>
    let spread_width := pyAbs (l0.strike - l1.strike) * 100
    if is_debit then (pyAbs net_cost, spread_width - pyAbs net_cost)
    else (spread_width - pyAbs net_cost, pyAbs net_cost)
  | _ => (0, 0)

/-- The net_credit accumulation loop of _calculate_iron_condor_metrics
(note: unlike netCost, it ignores the leg quantity). -/
def condorNetCredit (legs : List TradeLeg) : ℚ :=
  legs.foldl
    (fun acc l => match l.action with
      | .sell => acc + l.price * 100
      | .buy => acc - l.price * 100) 0

/-- Width of the same-class strike pair: abs difference of the two strikes
scaled by 100 when the class has exactly two legs, else 0. -/
def classWidth (legs : List TradeLeg) (oc : OptionClass) : ℚ :=
  match (legs.filter fun l => l.option_type = oc).map (fun l => l.strike) with
  | [a, b] => pyAbs (a - b) * 100
  | _ => 0

/-- RiskMetrics._calculate_iron_condor_metrics
(src/src/analytics/risk_metrics.py lines 129-162); returns
(max_loss, max_gain). -/
def ironCondorMetrics (legs : List TradeLeg) : ℚ × ℚ :=
  if legs.length < 4 then (0, 0)
  else
    let net_credit := condorNetCredit legs
    let call_spread_width := classWidth legs .call
    let put_spread_width := classWidth legs .put
    (max call_spread_width put_spread_width - net_credit, net_credit)

/-- RiskMetrics.calculate_trade_metrics
(src/src/analytics/risk_metrics.py lines 15-69); none embeds the empty
dict returned for a leg-less trade. -/
def calculateTradeMetrics (t : Trade) : Option RiskMetricsResult :=
  match t.legs with
  | [] => none
  | leg0 :: _ =>
    let net_cost := netCost t.legs
    let is_debit : Bool := decide (net_cost > 0)
    let ml_mg :=
      if t.strategy.isSpread then spreadMetrics t.legs net_cost is_debit
      else if t.strategy.isIronCondor then ironCondorMetrics t.legs
      else singleOptionMetrics t.underlying_price leg0 net_cost
    some
      { max_loss := ml_mg.1
        max_gain := ml_mg.2
        net_cost := pyAbs net_cost
        is_debit := is_debit
        riskRewardRatio := if ml_mg.1 > 0 then ml_mg.2 / ml_mg.1 else 0 }

/-- GreeksCalculator.calculate_d1_d2 (src/src/analytics/greeks.py lines
17-44).  logQ and sqrtQ stand for np.log and np.sqrt; none marks the
ZeroDivisionError raised when a denominator float is exactly zero
(S / K with K = 0, or the d1 denominator sigma * sqrt(T)). -/
def d1d2 (logQ sqrtQ : ℚ → ℚ) (S K T r sigma : ℚ) : Option (ℚ × ℚ) :=
  if T ≤ 0 ∨ sigma ≤ 0 then some (0, 0)
  else if K = 0 ∨ sigma * sqrtQ T = 0 then none
  else
    let d1 := (logQ (S / K) + (r + sigma ^ 2 / 2) * T) / (sigma * sqrtQ T)
    some (d1, d1 - sigma * sqrtQ T)

/-- GreeksCalculator.delta (src/src/analytics/greeks.py lines 46-81);
cdf stands for scipy.stats.norm.cdf. -/
def delta (logQ sqrtQ cdf : ℚ → ℚ) (S K T r sigma : ℚ) (ot : OptionClass) :
    Option ℚ :=
  if T ≤ 0 then
    some
      (match ot with
        | .call => if S > K then 1 else 0
        | .put => if S < K then -1 else 0)
  else
    (d1d2 logQ sqrtQ S K T r sigma).map fun d =>
      match ot with
      | .call => cdf d.1
      | .put => cdf d.1 - 1

/-- ProbabilityCalculator.probability_itm
(src/src/analytics/probability.py lines 18-52). -/
def probabilityItm (logQ sqrtQ cdf : ℚ → ℚ) (S K T r sigma : ℚ)
    (ot : OptionClass) : Option ℚ :=
  if T ≤ 0 then
    some
      (match ot with
        | .call => if S > K then 1 else 0
        | .put => if S < K then 1 else 0)
  else
    (d1d2 logQ sqrtQ S K T r sigma).map fun d =>
      match ot with
      | .call => cdf d.2
      | .put => cdf (-d.2)

/-- ProbabilityCalculator.probability_touch
(src/src/analytics/probability.py lines 54-80): min(2 * abs(delta), 1). -/
def probabilityTouch (logQ sqrtQ cdf : ℚ → ℚ) (S K T r sigma : ℚ)
    (ot : OptionClass) : Option ℚ :=
  (delta logQ sqrtQ cdf S K T r sigma ot).map fun d => min (2 * pyAbs d) 1

/-- ProbabilityCalculator.expected_move
(src/src/analytics/probability.py lines 82-99): S * sigma * math.sqrt(T);
none marks the ValueError math.sqrt raises on a negative argument. -/
def expectedMove (sqrtQ : ℚ → ℚ) (S sigma T : ℚ) : Option ℚ :=
  if T < 0 then none else some (S * sigma * sqrtQ T)

/-- The result dict of ProbabilityCalculator.monte_carlo_simulation.  The
two return sites of the source carry different key sets: the T <= 0
short-circuit has max_loss but neither expected_value nor final_prices,
and the simulation branch has the reverse; absent keys are none. -/
structure McResult where
  probability_profit : ℚ
  avg_profit : ℚ
  max_profit : ℚ
  expected_value : Option ℚ
  final_prices : Option (List ℚ)
  max_loss : Option ℚ
deriving DecidableEq, Repr

/-- Maximum of a nonempty list, as np.max computes it (the empty case is
guarded by the caller). -/
def listMax : List ℚ → ℚ
  | [] => 0
  | x :: xs => xs.foldl max x

/-- Terminal price of the single-step geometric Brownian motion path for
the standard-normal draw zi: S * exp(drift + diffusion * zi). -/
def gbmTerminal (expQ sqrtQ : ℚ → ℚ) (S T r sigma zi : ℚ) : ℚ :=
  S * expQ ((r - 1/2 * sigma ^ 2) * T + sigma * sqrtQ T * zi)

/-- Raw (undiscounted) terminal payoff of the option at terminal price st. -/
def rawPayoff (ot : OptionClass) (K st : ℚ) : ℚ :=
  match ot with
  | .call => max (st - K) 0
  | .put => max (K - st) 0

/-- ProbabilityCalculator.monte_carlo_simulation
(src/src/analytics/probability.py lines 101-167), with the vector Z of
standard-normal draws passed explicitly (the source draws it from
np.random; num_simulations is Z.length).  none marks the ValueError np.max
raises on the empty payoff array when Z is empty. -/
def monteCarlo (expQ sqrtQ : ℚ → ℚ) (S K T r sigma : ℚ) (ot : OptionClass)
    (Z : List ℚ) : Option McResult :=
  if T ≤ 0 then
    let terminal := match ot with
      | .call => max (S - K) 0
      | .put => max (K - S) 0
    some
      { probability_profit :=
          if (S > K ∧ ot = OptionClass.call) ∨ (S < K ∧ ot = OptionClass.put)
          then 1 else 0
        avg_profit := terminal
        max_profit := terminal
        expected_value := none
        final_prices := none
        max_loss := some 0 }
  else
    match Z with
    | [] => none
    | z0 :: zrest =>
      let ST := (z0 :: zrest).map (gbmTerminal expQ sqrtQ S T r sigma)
      let payoffs := ST.map (rawPayoff ot K)
      let discounted := payoffs.map fun p => p * expQ (-(r * T))
      let n : ℚ := (z0 :: zrest).length
      some
        { probability_profit := (payoffs.countP fun p => decide (0 < p)) / n
          avg_profit := discounted.sum / n
          max_profit := listMax discounted
          expected_value := some (discounted.sum / n)
          final_prices := some (ST.take 100)
          max_loss := none }

/-- ProbabilityCalculator.spread_probability_profit
(src/src/analytics/probability.py lines 208-257).  The K_short parameter
of the source is never read.  none marks the ZeroDivisionError raised when
the z denominator std_dev = S * sigma * sqrt(T) is exactly zero. -/
def spreadProbabilityProfit (expQ sqrtQ cdf : ℚ → ℚ)
    (S K_long K_short T r sigma debit_paid : ℚ) (ot : OptionClass) :
    Option ℚ :=
  let _ := K_short
  let breakeven := match ot with
    | .call => K_long + debit_paid
    | .put => K_long - debit_paid
  if T ≤ 0 then
    some
      (match ot with
        | .call => if S > breakeven then 1 else 0
        | .put => if S < breakeven then 1 else 0)
  else
    let expected_price := S * expQ (r * T)
    let std_dev := S * sigma * sqrtQ T
    if std_dev = 0 then none
    else
      let z := (breakeven - expected_price) / std_dev
      some
        (match ot with
          | .call => 1 - cdf z
          | .put => cdf z)

/-- A scored trade as consumed by TradeScorer.rank_trades. -/
structure ScoredTrade where
  trade : Trade
  score : ℚ
deriving DecidableEq, Repr

/-- Insertion step of the stable descending sort: the new element passes
every element of strictly greater score and stops in front of the first
element of less-or-equal score, so an element inserted later (that is,
earlier in the input list) precedes the elements of equal score already
placed. -/
def insertDesc (x : ScoredTrade) : List ScoredTrade → List ScoredTrade
  | [] => [x]
  | y :: ys => if x.score < y.score then y :: insertDesc x ys else x :: y :: ys

/-- Python sorted(trades, key score, reverse) is a stable descending sort;
this right-recursion insertion sort computes the same list (stability and
sortedness determine the output uniquely). -/
def sortDesc : List ScoredTrade → List ScoredTrade
  | [] => []
  | x :: xs => insertDesc x (sortDesc xs)

/-- TradeScorer.rank_trades (src/src/scoring/trade_scorer.py lines
232-259): filter by minimum score, stable-sort descending, truncate. -/
def rankTrades (s : Settings) (l : List ScoredTrade) : List ScoredTrade :=
  let filtered := l.filter fun t => decide (t.score ≥ s.min_trade_score)
  let ranked := sortDesc filtered
  ranked.take s.max_trades_output

/-- The six-step first-match-wins cascade exactly as the specification
words it, written over the signal values (bias, ATR proxy, volume ratio)
and the estimated IV percentile.  Steps 2 and 3 match only a directional
bias (there is no strong-neutral or neutral-breakout regime; a neutral
bias falls through to the later steps). -/
def cascadeSpec (s : Settings) (bias : Bias) (atr vr ivp : ℚ) :
    MarketCondition :=
  if ivp > s.extreme_iv_threshold then .newsSpike
  else if vr > 2 ∧ atr > 5/2 ∧ bias ≠ Bias.neutral then
    (if bias = Bias.bullish then .strongBullish else .strongBearish)
  else if vr > 3/2 ∧ ivp < s.low_iv_threshold ∧ bias ≠ Bias.neutral then
    (if bias = Bias.bullish then .bullishBreakout else .bearishBreakout)
  else if ivp > s.high_iv_threshold ∧ bias = Bias.neutral then .highIvRange
  else if bias = Bias.neutral ∧ vr < 3/2 then .choppy
  else
    match bias with
    | .bullish => .bullishBreakout
    | .bearish => .bearishBreakout
    | .neutral => .choppy

/-- Width of the first two legs of a vertical spread, as
_calculate_spread_metrics reads it. -/
def spreadWidthOf (legs : List TradeLeg) : ℚ :=
  match legs with
  | l0 :: l1 :: _ => pyAbs (l0.strike - l1.strike) * 100
  | _ => 0

/-- Options data with no contracts at all. -/
def odEmpty : OptionsData := ⟨100, [], []⟩

/-- Two calls; the second has the delta closest to 0.5 and IV 25 percent. -/
def odTwoCalls : OptionsData :=
  ⟨100,
    [⟨100, 5, 1, 2, 35/100, 55/100, 0, 0⟩,
     ⟨105, 5, 1, 2, 25/100, 48/100, 0, 0⟩],
    []⟩

/-- One call whose IV of 70 percent buckets to the top percentile 85. -/
def odHighIv : OptionsData :=
  ⟨100, [⟨100, 5, 1, 2, 70/100, 50/100, 0, 0⟩], []⟩

/-- A bullish candidate with a 2.5 volume ratio and ATR 3. -/
def bullCandidate : Candidate := ⟨.bullish, 3, 25, 10⟩

/-- A neutral low-volume candidate. -/
def neutralCandidate : Candidate := ⟨.neutral, 1, 10, 10⟩

/-- Default settings with the extreme-IV threshold lowered below the top
bucket value 85, so that the news-spike step can fire. -/
def lowExtremeSettings : Settings :=
  { defaultSettings with extreme_iv_threshold := 80 }

/-- Default settings with a negative probability weight. -/
def negWeightSettings : Settings :=
  { defaultSettings with weight_probability := -(30/100) }

/-- The specification's worked vertical debit spread: long strike 100 at
mid 2.00, short strike 105 at mid 0.80. -/
def debitSpreadTrade : Trade :=
  { strategy := .callDebitSpread
    condition := .bullishBreakout
    bias := .bullish
    underlying_price := 102
    dte := 5
    legs := [⟨.buy, .call, 100, 1, 2⟩, ⟨.sell, .call, 105, 1, 4/5⟩] }

/-- The metrics the source computes for debitSpreadTrade. -/
def debitSpreadMetrics : RiskMetricsResult := ⟨120, 380, 120, true, 19/6⟩

/-- A 100/105 call credit spread collecting a 7.00 credit, more than the
5-point width. -/
def bigCreditSpreadTrade : Trade :=
  { strategy := .callCreditSpread
    condition := .highIvRange
    bias := .neutral
    underlying_price := 100
    dte := 5
    legs := [⟨.sell, .call, 100, 1, 7⟩, ⟨.buy, .call, 105, 1, 0⟩] }

/-- Scored-trade list used to exercise ranking concretely. -/
def scoredListW : List ScoredTrade :=
  [⟨debitSpreadTrade, 80⟩, ⟨bigCreditSpreadTrade, 60⟩, ⟨debitSpreadTrade, 90⟩]

theorem pyAbs_eq_abs (q : ℚ) : pyAbs q = |q| := by
  unfold pyAbs
  split_ifs with h
  · exact (abs_of_neg h).symm
  · exact (abs_of_nonneg (le_of_not_lt h)).symm

theorem pyAbs_nonneg (q : ℚ) : 0 ≤ pyAbs q := by
  rw [pyAbs_eq_abs]; exact abs_nonneg q

theorem pyMin_cons (key : α → ℚ) (x a : α) (xs : List α) :
    pyMin key x (a :: xs) = pyMin key (if key a < key x then a else x) xs := rfl

theorem pyMin_le (key : α → ℚ) :
    ∀ (xs : List α) (x : α), ∀ b ∈ x :: xs, key (pyMin key x xs) ≤ key b := by
  intro xs
  induction xs with
  | nil =>
    intro x b hb
    rw [List.mem_singleton] at hb
    subst hb
    exact le_refl _
  | cons a as ih =>
    intro x b hb
    rw [pyMin_cons]
    have hy : key (if key a < key x then a else x) ≤ key x ∧
        key (if key a < key x then a else x) ≤ key a := by
      split_ifs with h
      · exact ⟨le_of_lt h, le_refl _⟩
      · exact ⟨le_refl _, le_of_not_lt h⟩
    have hself := ih (if key a < key x then a else x) _ (List.mem_cons_self _ _)
    rcases List.mem_cons.mp hb with rfl | hb
    · exact hself.trans hy.1
    · rcases List.mem_cons.mp hb with rfl | hb
      · exact hself.trans hy.2
      · exact ih _ b (List.mem_cons_of_mem _ hb)

theorem pyMin_first_occurrence (key : α → ℚ) :
    ∀ (xs : List α) (x : α), ∃ l₁ l₂,
      x :: xs = l₁ ++ pyMin key x xs :: l₂ ∧
      ∀ b ∈ l₁, key (pyMin key x xs) < key b := by
  intro xs
  induction xs with
  | nil =>
    intro x
    exact ⟨[], [], rfl, by simp⟩
  | cons a as ih =>
    intro x
    rw [pyMin_cons]
    by_cases h : key a < key x
    · rw [if_pos h]
      obtain ⟨l₁, l₂, hdec, hlt⟩ := ih a
      refine ⟨x :: l₁, l₂, by rw [List.cons_append, ← hdec], ?_⟩
      intro b hb
      rcases List.mem_cons.mp hb with rfl | hb
      · exact lt_of_le_of_lt (pyMin_le key as a a (List.mem_cons_self _ _)) h
      · exact hlt b hb
    · rw [if_neg h]
      obtain ⟨l₁, l₂, hdec, hlt⟩ := ih x
      cases l₁ with
      | nil =>
        rw [List.nil_append] at hdec
        refine ⟨[], a :: as, ?_, by simp⟩
        rw [List.nil_append, ← List.head_eq_of_cons_eq hdec]
      | cons p l₁t =>
        rw [List.cons_append] at hdec
        have hp : x = p := List.head_eq_of_cons_eq hdec
        have has : as = l₁t ++ pyMin key x as :: l₂ :=
          List.tail_eq_of_cons_eq hdec
        have hx : key (pyMin key x as) < key x := by
          have := hlt p (List.mem_cons_self _ _)
          rw [← hp] at this
          exact this
        refine ⟨x :: a :: l₁t, l₂, by rw [List.cons_append, List.cons_append, ← has], ?_⟩
        intro b hb
        rcases List.mem_cons.mp hb with rfl | hb
        · exact hx
        · rcases List.mem_cons.mp hb with rfl | hb
          · exact lt_of_lt_of_le hx (le_of_not_lt h)
          · exact hlt b (List.mem_cons_of_mem _ hb)

theorem netCost_shift (legs : List TradeLeg) :
    ∀ acc : ℚ, legs.foldl (fun a l => a + legSigned l) acc =
      acc + legs.foldl (fun a l => a + legSigned l) 0 := by
  induction legs with
  | nil => intro acc; simp
  | cons l ls ih =>
    intro acc
    simp only [List.foldl_cons]
    rw [ih (acc + legSigned l), ih (0 + legSigned l)]
    ring

theorem netCost_cons (l : TradeLeg) (ls : List TradeLeg) :
    netCost (l :: ls) = legSigned l + netCost ls := by
  unfold netCost
  simp only [List.foldl_cons]
  rw [netCost_shift ls (0 + legSigned l)]
  ring

theorem netCost_eq_buy_sub_sell :
    ∀ legs : List TradeLeg, netCost legs = buyTotal legs - sellTotal legs := by
  intro legs
  induction legs with
  | nil => simp [netCost, buyTotal, sellTotal]
  | cons l ls ih =>
    rw [netCost_cons, ih]
    unfold buyTotal sellTotal legSigned
    cases hl : l.action <;>
      simp [List.filter_cons, hl] <;> ring

theorem insertDesc_perm (x : ScoredTrade) :
    ∀ l : List ScoredTrade, (insertDesc x l).Perm (x :: l) := by
  intro l
  induction l with
  | nil => exact List.Perm.refl _
  | cons y ys ih =>
    unfold insertDesc
    split_ifs
    · exact (ih.cons y).trans (List.Perm.swap x y ys)
    · exact List.Perm.refl _

theorem sortDesc_perm : ∀ l : List ScoredTrade, (sortDesc l).Perm l := by
  intro l
  induction l with
  | nil => exact List.Perm.refl _
  | cons x xs ih =>
    exact (insertDesc_perm x (sortDesc xs)).trans (ih.cons x)

theorem insertDesc_sorted (x : ScoredTrade) :
    ∀ l : List ScoredTrade,
      l.Sorted (fun a b => b.score ≤ a.score) →
      (insertDesc x l).Sorted (fun a b => b.score ≤ a.score) := by
  intro l
  induction l with
  | nil => intro _; simp [insertDesc]
  | cons y ys ih =>
    intro hs
    rw [List.sorted_cons] at hs
    unfold insertDesc
    split_ifs with h
    · rw [List.sorted_cons]
      refine ⟨?_, ih hs.2⟩
      intro b hb
      rcases List.mem_cons.mp ((insertDesc_perm x ys).mem_iff.mp hb) with rfl | hb
      · exact le_of_lt h
      · exact hs.1 b hb
    · rw [List.sorted_cons, List.sorted_cons]
      exact ⟨fun b hb => by
        rcases List.mem_cons.mp hb with rfl | hb
        · exact le_of_not_lt h
        · exact (hs.1 b hb).trans (le_of_not_lt h), hs.1, hs.2⟩

theorem sortDesc_sorted :
    ∀ l : List ScoredTrade,
      (sortDesc l).Sorted (fun a b => b.score ≤ a.score) := by
  intro l
  induction l with
  | nil => simp [sortDesc]
  | cons x xs ih => exact insertDesc_sorted x (sortDesc xs) ih

theorem insertDesc_filter_score (q : ℚ) (x : ScoredTrade) :
    ∀ l : List ScoredTrade,
      (insertDesc x l).filter (fun t => decide (t.score = q)) =
      ((x :: l).filter fun t => decide (t.score = q)) := by
  intro l
  induction l with
  | nil => rfl
  | cons y ys ih =>
    unfold insertDesc
    split_ifs with h
    · by_cases hy : y.score = q
      · have hx : ¬ x.score = q := fun hx =>
          absurd h (by rw [hx, hy]; exact lt_irrefl q)
        simp [List.filter_cons, hx, hy, ih]
      · simp [List.filter_cons, hy, ih]
    · rfl

theorem sortDesc_filter_score (q : ℚ) :
    ∀ l : List ScoredTrade,
      (sortDesc l).filter (fun t => decide (t.score = q)) =
      (l.filter fun t => decide (t.score = q)) := by
  intro l
  induction l with
  | nil => rfl
  | cons x xs ih =>
    show (insertDesc x (sortDesc xs)).filter _ = _
    rw [insertDesc_filter_score]
    simp only [List.filter_cons]
    rw [ih]

/-- C1: the market-condition classifier is exactly the specification's
ordered six-step first-match cascade over (bias, ATR, volume ratio,
estimated IV percentile); in particular an IV percentile above the extreme
threshold yields news-spike regardless of the other signals, the
news-spike template is skip, and select_strategy then returns no trade. -/
theorem C1_classifier_cascade (s : Settings) (c : Candidate)
    (od : OptionsData) :
    detectMarketCondition s c od =
      cascadeSpec s c.vwap_bias c.atr (volumeRatio c)
        (estimateIvPercentile od) ∧
    (estimateIvPercentile od > s.extreme_iv_threshold →
      detectMarketCondition s c od = MarketCondition.newsSpike ∧
      (getStrategyConfig (detectMarketCondition s c od)).strategy_type =
        StrategyType.skip ∧
      selectStrategy s c od = none) := by
  have hdet : detectMarketCondition s c od =
      cascadeSpec s c.vwap_bias c.atr (volumeRatio c)
        (estimateIvPercentile od) := by
    cases hb : c.vwap_bias <;>
      simp [detectMarketCondition, cascadeSpec, hb]
  refine ⟨hdet, fun h => ?_⟩
  have h1 : detectMarketCondition s c od = MarketCondition.newsSpike := by
    simp only [detectMarketCondition]
    rw [if_pos h]
  refine ⟨h1, by rw [h1]; rfl, ?_⟩
  simp [selectStrategy, h1, getStrategyConfig]

/-- C1 witness: with the extreme threshold lowered to 80 and a call whose
implied volatility buckets to percentile 85, the classifier returns
news-spike and select_strategy produces no trade. -/
theorem C1_classifier_cascade_witness :
    detectMarketCondition lowExtremeSettings bullCandidate odHighIv =
      MarketCondition.newsSpike ∧
    selectStrategy lowExtremeSettings bullCandidate odHighIv = none := by
  have h := (C1_classifier_cascade lowExtremeSettings bullCandidate odHighIv).2
    (by norm_num [estimateIvPercentile, odHighIv, pyMin, atmKey, pyAbs,
      bucketIv, lowExtremeSettings, defaultSettings])
  exact ⟨h.1, h.2.2⟩

/-- C4: the claim that Settings construction rejects a negative scoring
weight fails: config/settings.py declares the weight fields without any
validator, so a Settings value with weight_probability = -0.30 is accepted
as-is. -/
theorem C4_negative_weight_accepted :
    validateSettings negWeightSettings = some negWeightSettings ∧
    negWeightSettings.weight_probability < 0 := by
  refine ⟨rfl, ?_⟩
  norm_num [negWeightSettings, defaultSettings]

/-- C2 counterexample: a 100/105 call credit spread collecting a 7.00
credit (more than the 5-point width) is accepted by
calculate_trade_metrics with non-negative leg prices and strikes, yet the
returned max_loss is -200, refuting the claimed non-negativity. -/
theorem C2_counterexample :
    calculateTradeMetrics bigCreditSpreadTrade =
      some ⟨-200, 700, 700, false, 0⟩ ∧ ((-200 : ℚ) < 0) := by
  constructor
  · norm_num [calculateTradeMetrics, netCost, legSigned, spreadMetrics,
      pyAbs, bigCreditSpreadTrade, StrategyType.isSpread]
  · norm_num

/-- C2 amended: max_loss and max_gain are non-negative provided the
premium magnitude stays inside the payoff bound of the shape (vertical
spreads: |net cost| at most the spread width; iron condors: net credit
between 0 and the wider spread; single puts: premium at most strike x 100;
single calls: unconditional), and risk_reward_ratio is 0 whenever max_loss
is 0 (indeed whenever it is non-positive). -/
theorem C2_amended (t : Trade) (m : RiskMetricsResult)
    (hm : calculateTradeMetrics t = some m) :
    (m.max_loss ≤ 0 → m.riskRewardRatio = 0) ∧
    (t.strategy.isSpread = true →
      pyAbs (netCost t.legs) ≤ spreadWidthOf t.legs →
      0 ≤ m.max_loss ∧ 0 ≤ m.max_gain) ∧
    (t.strategy.isIronCondor = true →
      0 ≤ condorNetCredit t.legs →
      condorNetCredit t.legs ≤
        max (classWidth t.legs OptionClass.call)
          (classWidth t.legs OptionClass.put) →
      0 ≤ m.max_loss ∧ 0 ≤ m.max_gain) ∧
    (∀ leg0 rest, t.legs = leg0 :: rest →
      t.strategy.isSpread = false → t.strategy.isIronCondor = false →
      (leg0.option_type = OptionClass.call →
        0 ≤ m.max_loss ∧ 0 ≤ m.max_gain) ∧
      (leg0.option_type = OptionClass.put →
        pyAbs (netCost t.legs) ≤ leg0.strike * 100 →
        0 ≤ m.max_loss ∧ 0 ≤ m.max_gain)) := by
  cases hlegs : t.legs with
  | nil => simp [calculateTradeMetrics, hlegs] at hm
  | cons leg0 rest =>
    rw [calculateTradeMetrics, hlegs] at hm
    rw [Option.some.injEq] at hm
    subst hm
    simp only [hlegs]
    refine ⟨?_, ?_, ?_, ?_⟩
    · intro h
      rw [if_neg (not_lt.mpr h)]
    · intro hsp hw
      rw [if_pos hsp]
      cases rest with
      | nil => simp [spreadMetrics]
      | cons l1 r2 =>
        simp only [spreadMetrics, spreadWidthOf] at hw ⊢
        have h1 := pyAbs_nonneg (netCost (leg0 :: l1 :: r2))
        have h2 := pyAbs_nonneg (leg0.strike - l1.strike)
        split_ifs <;> refine ⟨?_, ?_⟩ <;> dsimp only <;> linarith
    · intro hic h0 h1
      have hsp : t.strategy.isSpread = false := by
        cases hst : t.strategy <;> rw [hst] at hic <;>
          simp_all [StrategyType.isSpread, StrategyType.isIronCondor]
      rw [if_neg (by simp [hsp]), if_pos hic]
      simp only [ironCondorMetrics]
      split_ifs
      · simp
      · refine ⟨?_, ?_⟩ <;> dsimp only
        · linarith
        · exact h0
    · intro leg0' rest' hlr hspf hicf
      injection hlr with he1 he2
      subst he1
      subst he2
      rw [if_neg (by simp [hspf]), if_neg (by simp [hicf])]
      cases hc : leg0.option_type with
      | call =>
        refine ⟨fun _ => ?_, fun hput => by simp at hput⟩
        simp only [singleOptionMetrics, hc]
        constructor
        · exact pyAbs_nonneg _
        · exact le_max_of_le_right
            (mul_nonneg (pyAbs_nonneg _) (by norm_num))
      | put =>
        refine ⟨fun hcall => by simp at hcall, fun _ hb => ?_⟩
        simp only [singleOptionMetrics, hc]
        exact ⟨pyAbs_nonneg _, sub_nonneg.mpr hb⟩

/-- C2 amended witness: the worked debit spread stays inside the width
bound, so its metrics are non-negative. -/
theorem C2_amended_witness :
    0 ≤ debitSpreadMetrics.max_loss ∧ 0 ≤ debitSpreadMetrics.max_gain :=
  (C2_amended debitSpreadTrade debitSpreadMetrics
    (by norm_num [calculateTradeMetrics, netCost, legSigned, spreadMetrics,
      pyAbs, debitSpreadTrade, debitSpreadMetrics,
      StrategyType.isSpread])).2.1
    (by rfl)
    (by norm_num [netCost, legSigned, pyAbs, spreadWidthOf, debitSpreadTrade])

/-- C7: for a two-leg vertical spread the engine computes net cost as the
buy total minus the sell total (per 100 shares), width as the absolute
strike difference times 100, and splits max loss/gain by the debit or
credit sign exactly as claimed; the worked instance long 100 at 2.00 and
short 105 at 0.80 yields net debit 120, max_loss 120, max_gain 380 and
risk/reward 19/6, within 0.0001 of 3.1667. -/
theorem C7_vertical_spread (t : Trade) (l0 l1 : TradeLeg)
    (m : RiskMetricsResult) (hs : t.strategy.isSpread = true)
    (hlegs : t.legs = [l0, l1]) (hm : calculateTradeMetrics t = some m) :
    netCost t.legs = buyTotal t.legs - sellTotal t.legs ∧
    (0 < netCost t.legs →
      m.max_loss = pyAbs (netCost t.legs) ∧
      m.max_gain = pyAbs (l0.strike - l1.strike) * 100 - m.max_loss) ∧
    (netCost t.legs ≤ 0 →
      m.max_gain = pyAbs (netCost t.legs) ∧
      m.max_loss = pyAbs (l0.strike - l1.strike) * 100 - m.max_gain) ∧
    calculateTradeMetrics debitSpreadTrade = some debitSpreadMetrics ∧
    debitSpreadMetrics.riskRewardRatio = 19/6 ∧
    pyAbs (debitSpreadMetrics.riskRewardRatio - 31667/10000) < 1/10000 := by
  rw [calculateTradeMetrics, hlegs] at hm
  rw [Option.some.injEq] at hm
  subst hm
  simp only [hlegs, hs, if_pos]
  refine ⟨netCost_eq_buy_sub_sell _, ?_, ?_, ?_, ?_, ?_⟩
  · intro h
    simp [spreadMetrics, h]
  · intro h
    simp [spreadMetrics, not_lt.mpr h]
  · norm_num [calculateTradeMetrics, netCost, legSigned, spreadMetrics,
      pyAbs, debitSpreadTrade, debitSpreadMetrics, StrategyType.isSpread]
  · norm_num [debitSpreadMetrics]
  · norm_num [debitSpreadMetrics, pyAbs]

/-- C3 counterexample: two core probability functions raise on
degenerate-numeric input: spread_probability_profit divides by zero at
sigma = 0 with T = 1 (std_dev = S * sigma * sqrt(T) = 0), and
expected_move calls math.sqrt on T = -1, which raises ValueError. -/
theorem C3_counterexample :
    spreadProbabilityProfit id id id 100 100 105 1 (1/20) 0 (6/5)
      OptionClass.call = none ∧
    expectedMove id 100 (1/5) (-1) = none := by
  constructor
  · norm_num [spreadProbabilityProfit]
  · norm_num [expectedMove]

/-- C3 amended: on degenerate inputs (T at most 0 or sigma at most 0) the
functions probability_itm, probability_touch and monte_carlo_simulation
always return a value through their explicit branches; expected_move
returns a value exactly when T is non-negative (math.sqrt raises for
negative T); and spread_probability_profit returns a value unless T is
positive and sigma is exactly 0, in which case the z denominator
S * sigma * sqrt(T) is zero and the division raises. -/
theorem C3_amended (logQ sqrtQ cdf expQ : ℚ → ℚ)
    (S K Kshort T r sigma debit : ℚ) (ot : OptionClass) (z : ℚ)
    (zs : List ℚ) (hS : S ≠ 0) (hsq : ∀ x : ℚ, 0 < x → sqrtQ x ≠ 0)
    (hdeg : T ≤ 0 ∨ sigma ≤ 0) :
    (probabilityItm logQ sqrtQ cdf S K T r sigma ot).isSome = true ∧
    (probabilityTouch logQ sqrtQ cdf S K T r sigma ot).isSome = true ∧
    (monteCarlo expQ sqrtQ S K T r sigma ot (z :: zs)).isSome = true ∧
    (0 ≤ T → (expectedMove sqrtQ S sigma T).isSome = true) ∧
    (T < 0 → expectedMove sqrtQ S sigma T = none) ∧
    (T ≤ 0 ∨ sigma ≠ 0 →
      (spreadProbabilityProfit expQ sqrtQ cdf S K Kshort T r sigma debit
        ot).isSome = true) ∧
    (0 < T → sigma = 0 →
      spreadProbabilityProfit expQ sqrtQ cdf S K Kshort T r sigma debit ot =
        none) := by
  have hguard : d1d2 logQ sqrtQ S K T r sigma = some (0, 0) := by
    unfold d1d2
    rw [if_pos hdeg]
  refine ⟨?_, ?_, ?_, ?_, ?_, ?_, ?_⟩
  · unfold probabilityItm
    by_cases hT : T ≤ 0
    · rw [if_pos hT]
      rfl
    · rw [if_neg hT, hguard]
      rfl
  · unfold probabilityTouch delta
    by_cases hT : T ≤ 0
    · rw [if_pos hT]
      rfl
    · rw [if_neg hT, hguard]
      rfl
  · unfold monteCarlo
    by_cases hT : T ≤ 0
    · rw [if_pos hT]
      rfl
    · rw [if_neg hT]
      rfl
  · intro h0T
    unfold expectedMove
    rw [if_neg (not_lt.mpr h0T)]
    rfl
  · intro hneg
    unfold expectedMove
    rw [if_pos hneg]
  · intro hcase
    simp only [spreadProbabilityProfit]
    by_cases hT : T ≤ 0
    · rw [if_pos hT]
      rfl
    · have hsig : sigma ≠ 0 := hcase.resolve_left hT
      have hTpos : 0 < T := lt_of_not_le hT
      have hstd : S * sigma * sqrtQ T ≠ 0 :=
        mul_ne_zero (mul_ne_zero hS hsig) (hsq T hTpos)
      rw [if_neg hT, if_neg hstd]
      rfl
  · intro hTpos hsig0
    subst hsig0
    simp only [spreadProbabilityProfit]
    rw [if_neg (not_le.mpr hTpos)]
    rw [if_pos (by ring)]

/-- C3 amended witness: at T = 0 every function of the amended statement
returns a value, including spread_probability_profit. -/
theorem C3_amended_witness :
    (probabilityItm id id id 100 100 0 (1/20) (1/5)
      OptionClass.call).isSome = true ∧
    (spreadProbabilityProfit id id id 100 100 105 0 (1/20) (1/5) (6/5)
      OptionClass.call).isSome = true := by
  have h := C3_amended id id id id 100 100 105 0 (1/20) (1/5) (6/5)
    OptionClass.call 1 [] (by norm_num) (fun x hx => ne_of_gt hx)
    (Or.inl le_rfl)
  exact ⟨h.1, h.2.2.2.2.2.1 (Or.inl le_rfl)⟩

theorem rawPayoff_pos_iff_call (K st : ℚ) :
    0 < rawPayoff OptionClass.call K st ↔ K < st := by
  simp [rawPayoff, lt_max_iff, sub_pos]

theorem rawPayoff_pos_iff_put (K st : ℚ) :
    0 < rawPayoff OptionClass.put K st ↔ st < K := by
  simp [rawPayoff, lt_max_iff, sub_pos]

/-- C5: for a nonempty draw vector the Monte Carlo simulation reports the
fraction of paths with strictly positive raw payoff (equivalently, for
calls, paths finishing above the strike and for puts below it; the
premium is never subtracted), the mean and maximum of the discounted
payoffs, and the first 100 terminal prices; at T at most 0 it
short-circuits to probability 1 or 0 by the sign of the terminal
payoff. -/
theorem C5_monte_carlo (expQ sqrtQ : ℚ → ℚ) (S K T r sigma : ℚ)
    (ot : OptionClass) (z : ℚ) (zs : List ℚ) :
    (T ≤ 0 →
      monteCarlo expQ sqrtQ S K T r sigma ot (z :: zs) =
        some { probability_profit := if 0 < rawPayoff ot K S then 1 else 0
               avg_profit := rawPayoff ot K S
               max_profit := rawPayoff ot K S
               expected_value := none
               final_prices := none
               max_loss := some 0 }) ∧
    (0 < T →
      ∀ m, monteCarlo expQ sqrtQ S K T r sigma ot (z :: zs) = some m →
        m.probability_profit =
          ((((z :: zs).map (gbmTerminal expQ sqrtQ S T r sigma)).countP
            (fun st => decide (0 < rawPayoff ot K st)) : ℚ)) /
            (((z :: zs).length : ℚ)) ∧
        (ot = OptionClass.call →
          m.probability_profit =
            ((((z :: zs).map (gbmTerminal expQ sqrtQ S T r sigma)).countP
              (fun st => decide (K < st)) : ℚ)) /
              (((z :: zs).length : ℚ))) ∧
        (ot = OptionClass.put →
          m.probability_profit =
            ((((z :: zs).map (gbmTerminal expQ sqrtQ S T r sigma)).countP
              (fun st => decide (st < K)) : ℚ)) /
              (((z :: zs).length : ℚ))) ∧
        m.avg_profit =
          ((z :: zs).map fun zi =>
            rawPayoff ot K (gbmTerminal expQ sqrtQ S T r sigma zi) *
              expQ (-(r * T))).sum / (((z :: zs).length : ℚ)) ∧
        m.max_profit = listMax ((z :: zs).map fun zi =>
          rawPayoff ot K (gbmTerminal expQ sqrtQ S T r sigma zi) *
            expQ (-(r * T))) ∧
        m.expected_value = some m.avg_profit ∧
        m.final_prices =
          some (((z :: zs).map
            (gbmTerminal expQ sqrtQ S T r sigma)).take 100) ∧
        m.max_loss = none) := by
  constructor
  · intro hT
    unfold monteCarlo
    rw [if_pos hT]
    cases ot <;> simp [rawPayoff, lt_max_iff, sub_pos]
  · intro hT m hm
    unfold monteCarlo at hm
    rw [if_neg (not_le.mpr hT)] at hm
    rw [Option.some.injEq] at hm
    subst hm
    refine ⟨?_, ?_, ?_, ?_, ?_, rfl, rfl, rfl⟩
    · dsimp only
      rw [List.countP_map]
      rfl
    · intro hot
      subst hot
      dsimp only
      rw [List.countP_map]
      congr 1
      norm_cast
      apply List.countP_congr
      intro a _
      simp only [Function.comp_apply, decide_eq_true_eq]
      exact rawPayoff_pos_iff_call K _
    · intro hot
      subst hot
      dsimp only
      rw [List.countP_map]
      congr 1
      norm_cast
      apply List.countP_congr
      intro a _
      simp only [Function.comp_apply, decide_eq_true_eq]
      exact rawPayoff_pos_iff_put K _
    · dsimp only
      rw [List.map_map, List.map_map]
      rfl
    · dsimp only
      rw [List.map_map, List.map_map]
      rfl

/-- C5 witness: one call path drawn at z = 1 with unit transcendental
stand-ins finishes at 18, below the strike 90, so the reported probability
of profit is 0. -/
theorem C5_monte_carlo_witness :
    ((([(1:ℚ)].map (gbmTerminal id id 100 1 0 (1/5))).countP
      (fun st => decide ((90:ℚ) < st)) : ℚ)) / (([(1:ℚ)].length : ℚ)) =
      0 := by
  have h := (C5_monte_carlo id id 100 90 1 0 (1/5) OptionClass.call 1 []).2
    one_pos ⟨0, 0, 0, some 0, some [18], none⟩
    (by norm_num [monteCarlo, gbmTerminal, rawPayoff, listMax])
  rw [← h.2.1 rfl]

/-- C6: for a non-empty call list the IV-percentile estimate selects the
call minimizing abs(abs(delta) - 0.5) with ties resolved to the first
occurrence, buckets its implied volatility (as a percent) through the
fixed breakpoints, and therefore always lands in
the set of percentile values 20, 35, 50, 70, 85. -/
theorem C6_iv_estimator (od : OptionsData) (x : Contract)
    (xs : List Contract) (h : od.calls = x :: xs) :
    (∀ b ∈ od.calls, atmKey (pyMin atmKey x xs) ≤ atmKey b) ∧
    (∃ l₁ l₂, od.calls = l₁ ++ pyMin atmKey x xs :: l₂ ∧
      ∀ b ∈ l₁, atmKey (pyMin atmKey x xs) < atmKey b) ∧
    estimateIvPercentile od =
      bucketIv ((pyMin atmKey x xs).volatility * 100) ∧
    (∀ iv : ℚ,
      (iv < 20 → bucketIv iv = 20) ∧
      (20 ≤ iv → iv < 30 → bucketIv iv = 35) ∧
      (30 ≤ iv → iv < 40 → bucketIv iv = 50) ∧
      (40 ≤ iv → iv < 60 → bucketIv iv = 70) ∧
      (60 ≤ iv → bucketIv iv = 85)) ∧
    (estimateIvPercentile od = 20 ∨ estimateIvPercentile od = 35 ∨
      estimateIvPercentile od = 50 ∨ estimateIvPercentile od = 70 ∨
      estimateIvPercentile od = 85) := by
  have hest : estimateIvPercentile od =
      bucketIv ((pyMin atmKey x xs).volatility * 100) := by
    rw [estimateIvPercentile, h]
  refine ⟨?_, ?_, hest, ?_, ?_⟩
  · rw [h]
    exact pyMin_le atmKey xs x
  · rw [h]
    exact pyMin_first_occurrence atmKey xs x
  · intro iv
    unfold bucketIv
    refine ⟨fun h1 => ?_, fun h1 h2 => ?_, fun h1 h2 => ?_,
      fun h1 h2 => ?_, fun h1 => ?_⟩ <;>
      split_ifs <;> first | rfl | linarith
  · rw [hest]
    unfold bucketIv
    split_ifs <;> simp

/-- C6 witness: of two calls the second has delta closer to 0.5 and its
25 percent implied volatility buckets to percentile 35. -/
theorem C6_iv_estimator_witness : estimateIvPercentile odTwoCalls = 35 := by
  have h := (C6_iv_estimator odTwoCalls ⟨100, 5, 1, 2, 35/100, 55/100, 0, 0⟩
    [⟨105, 5, 1, 2, 25/100, 48/100, 0, 0⟩] rfl).2.2.1
  rw [h]
  norm_num [pyMin, atmKey, pyAbs, bucketIv]

/-- C8 counterexample: at expiration (T = 0) with S = K = 100 the source
returns delta 0 for both the call and the put, so the put delta does not
equal the call delta minus 1 there. -/
theorem C8_counterexample :
    delta id id id 100 100 0 (1/20) (1/5) OptionClass.put = some 0 ∧
    delta id id id 100 100 0 (1/20) (1/5) OptionClass.call = some 0 ∧
    (0 : ℚ) ≠ 0 - 1 := by
  refine ⟨?_, ?_, by norm_num⟩ <;> norm_num [delta]

/-- C8 amended: put delta equals call delta minus 1 on the whole declared
domain except the T-at-most-0 branch at exact moneyness S = K, where both
deltas are 0; the identity holds whenever T is positive or S differs
from K (covering the sigma-at-most-0 degenerate d1 = 0 branch as well). -/
theorem C8_amended (logQ sqrtQ cdf : ℚ → ℚ) (S K T r sigma : ℚ)
    (h : 0 < T ∨ S ≠ K) :
    delta logQ sqrtQ cdf S K T r sigma OptionClass.put =
      (delta logQ sqrtQ cdf S K T r sigma OptionClass.call).map
        (fun d => d - 1) := by
  by_cases hT : T ≤ 0
  · have hSK : S ≠ K :=
      h.resolve_left fun h0 => absurd hT (not_le.mpr h0)
    unfold delta
    rw [if_pos hT, if_pos hT]
    rcases lt_or_gt_of_ne hSK with hlt | hgt
    · norm_num [hlt, lt_asymm hlt]
    · norm_num [hgt, lt_asymm hgt]
  · unfold delta
    rw [if_neg hT, if_neg hT]
    cases hd : d1d2 logQ sqrtQ S K T r sigma <;> simp [hd]

/-- C8 amended witness: the identity at T = 0 away from the money. -/
theorem C8_amended_witness :
    delta id id id 100 90 0 (1/20) (1/5) OptionClass.put =
      (delta id id id 100 90 0 (1/20) (1/5) OptionClass.call).map
        (fun d => d - 1) :=
  C8_amended id id id 100 90 0 (1/20) (1/5) (Or.inr (by norm_num))

/-- C9: rank_trades keeps exactly the trades scoring at least the
minimum (a permutation of the filtered input), sorts them in descending
score order stably (the per-score sublists keep the input order), and
truncates to at most max_trades_output. -/
theorem C9_rank (s : Settings) (l : List ScoredTrade) :
    rankTrades s l =
      (sortDesc (l.filter fun t =>
        decide (t.score ≥ s.min_trade_score))).take s.max_trades_output ∧
    (sortDesc (l.filter fun t =>
      decide (t.score ≥ s.min_trade_score))).Sorted
        (fun a b => b.score ≤ a.score) ∧
    (sortDesc (l.filter fun t => decide (t.score ≥ s.min_trade_score))).Perm
      (l.filter fun t => decide (t.score ≥ s.min_trade_score)) ∧
    (∀ q : ℚ,
      (sortDesc (l.filter fun t =>
        decide (t.score ≥ s.min_trade_score))).filter
          (fun t => decide (t.score = q)) =
      (l.filter fun t => decide (t.score ≥ s.min_trade_score)).filter
        (fun t => decide (t.score = q))) ∧
    (rankTrades s l).length ≤ s.max_trades_output ∧
    (∀ t ∈ rankTrades s l, s.min_trade_score ≤ t.score) := by
  refine ⟨rfl, sortDesc_sorted _, sortDesc_perm _,
    fun q => sortDesc_filter_score q _, ?_, ?_⟩
  · simp only [rankTrades]
    rw [List.length_take]
    exact min_le_left _ _
  · intro t ht
    have h1 : t ∈ sortDesc (l.filter fun t =>
        decide (t.score ≥ s.min_trade_score)) :=
      List.take_subset _ _ ht
    have h2 := (sortDesc_perm _).mem_iff.mp h1
    have h3 := List.mem_filter.mp h2
    exact of_decide_eq_true h3.2

/-- C9 witness: ranking the concrete list keeps the 90 and 80 scores (70
threshold, maximum 5) and the top entry scores at least the minimum. -/
theorem C9_rank_witness :
    defaultSettings.min_trade_score ≤
      (⟨debitSpreadTrade, 90⟩ : ScoredTrade).score :=
  (C9_rank defaultSettings scoredListW).2.2.2.2.2 ⟨debitSpreadTrade, 90⟩
    (by norm_num [rankTrades, sortDesc, insertDesc, scoredListW,
      defaultSettings])

/-- C10: with no call contracts the IV-percentile estimator returns the
mid-scale default 50 instead of raising; under the shipped default
thresholds (low 30, high 60, extreme 100) this default satisfies none of
the IV-triggered conditions, so classification proceeds and can produce
neither news-spike nor high-iv-range. -/
theorem C10_empty_calls (c : Candidate) (od : OptionsData)
    (h : od.calls = []) :
    estimateIvPercentile od = 50 ∧
    ¬(estimateIvPercentile od > defaultSettings.extreme_iv_threshold) ∧
    ¬(estimateIvPercentile od < defaultSettings.low_iv_threshold) ∧
    ¬(estimateIvPercentile od > defaultSettings.high_iv_threshold) ∧
    detectMarketCondition defaultSettings c od ≠
      MarketCondition.newsSpike ∧
    detectMarketCondition defaultSettings c od ≠
      MarketCondition.highIvRange := by
  have h50 : estimateIvPercentile od = 50 := by
    rw [estimateIvPercentile, h]
  refine ⟨h50, ?_, ?_, ?_, ?_, ?_⟩
  · rw [h50]
    norm_num [defaultSettings]
  · rw [h50]
    norm_num [defaultSettings]
  · rw [h50]
    norm_num [defaultSettings]
  · simp only [detectMarketCondition, h50]
    norm_num [defaultSettings]
    split_ifs <;> simp
  · simp only [detectMarketCondition, h50]
    norm_num [defaultSettings]
    split_ifs <;> simp

/-- C10 witness: the empty universe with a neutral candidate. -/
theorem C10_empty_calls_witness :
    estimateIvPercentile odEmpty = 50 ∧
    detectMarketCondition defaultSettings neutralCandidate odEmpty ≠
      MarketCondition.newsSpike :=
  ⟨(C10_empty_calls neutralCandidate odEmpty rfl).1,
    (C10_empty_calls neutralCandidate odEmpty rfl).2.2.2.2.1⟩

/-- C7 witness: the general debit branch applied to the worked debit
spread instance. -/
theorem C7_vertical_spread_witness :
    0 < netCost debitSpreadTrade.legs ∧
    debitSpreadMetrics.max_loss = pyAbs (netCost debitSpreadTrade.legs) := by
  have hpos : 0 < netCost debitSpreadTrade.legs := by
    norm_num [netCost, legSigned, debitSpreadTrade]
  refine ⟨hpos, ?_⟩
  have h := (C7_vertical_spread debitSpreadTrade ⟨.buy, .call, 100, 1, 2⟩
    ⟨.sell, .call, 105, 1, 4/5⟩ debitSpreadMetrics (by rfl) (by rfl)
    (by norm_num [calculateTradeMetrics, netCost, legSigned, spreadMetrics,
      pyAbs, debitSpreadTrade, debitSpreadMetrics,
      StrategyType.isSpread])).2.1 hpos
  exact h.1

end ODTA
